/-
Verification of the house-finder scan engine (src/scan.js).

The embedding models the three source adapters (DuProprio, Sutton, Centris),
the merge/dedup reconciliation of the main IIFE, and the observable effects
of a run (JSON output, email call, store write, exit code).

JavaScript objects holding listings are modelled as association lists
(`Store`) with first-match lookup and replace-first/append-last update,
which matches JS object semantics for duplicate-free key sets.
JS `NaN` prices (from `parseInt`) are modelled as `none : Option Int`.
Exceptions thrown inside `page.evaluate` / the scan loops are modelled with
`Except`; each adapter's `try { ... } catch` is the outer `scan*Listings`
function, whose body is the `*Body` function.
-/
import Mathlib

set_option maxHeartbeats 1000000

deriving instance DecidableEq for Except

/-- One normalized real-estate listing record, as built by the extractors.
`price = none` models a JS `NaN` produced by `parseInt`; `imageUrl = none`
models a `null` returned by `getAttribute('src')`. -/
structure Listing where
  id : String
  price : Option Int
  city : Option String
  address : Option String
  description : Option String
  imageUrl : Option String
  url : String
  dateScanned : String
  source : String
deriving DecidableEq, Repr

/-- A JS object mapping listing ids to listings, as an association list. -/
abbrev Store := List (String × Listing)

/-- First-match lookup, i.e. `obj[k]` (JS objects hold each key once). -/
def lookupStore : Store → String → Option Listing
  | [], _ => none
  | e :: rest, k => if e.1 == k then some e.2 else lookupStore rest k

/-- `obj[k] = v`: replace the entry for `k` if present, else append. -/
def setKey : Store → String → Listing → Store
  | [], k, v => [(k, v)]
  | e :: rest, k, v => if e.1 == k then (k, v) :: rest else e :: setKey rest k v

/-- `Object.assign(target, src)`: apply every entry of `src` onto `target`. -/
def objAssign : Store → Store → Store
  | t, [] => t
  | t, e :: rest => objAssign (setKey t e.1 e.2) rest

/-- The key list of a store. -/
def storeKeys (s : Store) : List String := s.map Prod.fst

/-- Each key occurs at most once (true of every store the program builds). -/
def NodupKeys (s : Store) : Prop := (storeKeys s).Nodup

/-- Digits-to-number accumulation used by the `parseInt` model. -/
def digitsToNat (cs : List Char) : Nat :=
  cs.foldl (fun a c => a * 10 + (c.toNat - 48)) 0

/-- JS `parseInt(s)` on a string: skip leading whitespace, optional sign,
then read leading decimal digits; no digits means `NaN` (`none`). -/
def parseIntJS (s : String) : Option Int :=
  let cs := s.data.dropWhile (fun c => c == ' ' || c == '\t' || c == '\n' || c == '\r')
  match cs with
  | '-' :: rest =>
      let ds := rest.takeWhile Char.isDigit
      if ds.isEmpty then none else some (-(digitsToNat ds : Int))
  | '+' :: rest =>
      let ds := rest.takeWhile Char.isDigit
      if ds.isEmpty then none else some (digitsToNat ds : Int)
  | _ =>
      let ds := cs.takeWhile Char.isDigit
      if ds.isEmpty then none else some (digitsToNat ds : Int)

/-- `s.replace(/[^0-9]/g, '')`: keep only the decimal digits. -/
def stripNonDigits (s : String) : String := ⟨s.data.filter Char.isDigit⟩

/-- Does the character list start with the given pattern? -/
def startsWithChars : List Char → List Char → Bool
  | [], _ => true
  | _ :: _, [] => false
  | p :: ps, c :: cs => p == c && startsWithChars ps cs

/-- Fuel-driven worker for the JS `split` model (fuel bounds the number of
scanning steps, so the recursion is structural and kernel-reducible). -/
def jsSplitAux (sep : List Char) : Nat → List Char → List Char → List (List Char)
  | 0, l, acc => [acc.reverse ++ l]
  | _ + 1, [], acc => [acc.reverse]
  | fuel + 1, c :: rest, acc =>
      if startsWithChars sep (c :: rest) then
        acc.reverse :: jsSplitAux sep fuel (List.drop (sep.length - 1) rest) []
      else jsSplitAux sep fuel rest (c :: acc)

/-- JS `s.split(sep)` for a non-empty separator. -/
def jsSplit (sep : String) (s : String) : List String :=
  (jsSplitAux sep.data (s.data.length + 1) s.data []).map (fun l => ⟨l⟩)

/-- JS `s.trim()`: strip whitespace from both ends. -/
def jsTrim (s : String) : String :=
  ⟨((s.data.dropWhile Char.isWhitespace).reverse.dropWhile
      Char.isWhitespace).reverse⟩

/-- Does this character list start with `listing-` followed by a digit? -/
def startsWithListingDigit : List Char → Bool
  | 'l' :: 'i' :: 's' :: 't' :: 'i' :: 'n' :: 'g' :: '-' :: d :: _ => d.isDigit
  | _ => false

/-- Helper scanning every suffix for the `listing-[0-9]+` pattern. -/
def jsTestListingAux : List Char → Bool
  | [] => false
  | c :: rest => startsWithListingDigit (c :: rest) || jsTestListingAux rest

/-- JS `/listing-[0-9]+/.test(s)` (unanchored search). -/
def jsTestListing (s : String) : Bool := jsTestListingAux s.data

/-- JS `NaN < b` is false; otherwise ordinary integer comparison. -/
def jsNumLt (a : Option Int) (b : Int) : Bool :=
  match a with
  | none => false
  | some x => decide (x < b)

/-- JS `NaN > b` is false; otherwise ordinary integer comparison. -/
def jsNumGt (a : Option Int) (b : Int) : Bool :=
  match a with
  | none => false
  | some x => decide (x > b)

/-- Try to match `&w=<digits>&h=<digits>&` at the head of the list,
returning the remainder after the match. -/
def matchWidthHeight : List Char → Option (List Char)
  | '&' :: 'w' :: '=' :: rest =>
      let ds := rest.takeWhile Char.isDigit
      if ds.isEmpty then none
      else
        match rest.drop ds.length with
        | '&' :: 'h' :: '=' :: rest2 =>
            let ds2 := rest2.takeWhile Char.isDigit
            if ds2.isEmpty then none
            else
              match rest2.drop ds2.length with
              | '&' :: rest3 => some rest3
              | _ => none
        | _ => none
  | _ => none

/-- Replace the first (leftmost) `&w=\d+&h=\d+&` with `&w=640&h=480&`. -/
def replaceWidthHeightAux : List Char → List Char
  | [] => []
  | c :: rest =>
      match matchWidthHeight (c :: rest) with
      | some rem => "&w=640&h=480&".data ++ rem
      | none => c :: replaceWidthHeightAux rest

/-- JS `src.replace(/&w=\d+&h=\d+&/, '&w=640&h=480&')` (first match only). -/
def centrisRewriteImage (s : String) : String := ⟨replaceWidthHeightAux s.data⟩

/-- The dedup loop of the main IIFE (src/scan.js lines 34-41): for each
scanned listing, skip it when its id is already saved, otherwise add it to
both the new-listings object and the saved-listings object.  Note that an
already-saved id is `continue`d over: the saved entry is NOT overwritten. -/
def dedupLoop : List Listing → Store → Store → Store × Store
  | [], newL, savedL => (newL, savedL)
  | l :: rest, newL, savedL =>
      if (lookupStore savedL l.id).isSome then dedupLoop rest newL savedL
      else dedupLoop rest (setKey newL l.id l) (setKey savedL l.id l)

/-- The reconciliation: iterate over `Object.values(scannedListings)`
starting from an empty new-listings object and the saved store. -/
def dedup (scanned : Store) (saved : Store) : Store × Store :=
  dedupLoop (scanned.map Prod.snd) [] saved

/-- One `.search-results-listings-list__item` node on a DuProprio results
page.  `attrId` is `getAttribute('id')` (`none` = attribute absent);
`priceText` is the price node's text (`none` = node absent, dereferencing
throws); `imageSrc` is `none` when the `img[ref=...]` node is absent
(throw) and `some a` when present with `src` attribute `a` (`a = none`
models a `null` attribute); `linkHref` is the significantLink anchor's
`href` (`none` = node absent, throw). -/
structure DuproprioItem where
  isSold : Bool
  attrId : Option String
  priceText : Option String
  city : Option String
  address : Option String
  description : Option String
  imageSrc : Option (Option String)
  linkHref : Option String
deriving DecidableEq, Repr

/-- One DuProprio results page: its item nodes and whether the active
pagination entry is the `:last-child` (the terminal signal). -/
structure DuproprioPage where
  items : List DuproprioItem
  activeIsLast : Bool
deriving DecidableEq, Repr

/-- Extraction of a single DuProprio item (src/scan.js lines 83-108):
skip the item when its id attribute does not match `/listing-[0-9]+/`
(`getAttribute` returning `null` coerces to the string `"null"`);
otherwise build the record, throwing (`.error`) when the price, image or
link node is missing.  The price is `parseInt` of the digits of the price
text, which is `NaN` (`none`) when there are no digits. -/
def duproprioExtractItem (today : String) (item : DuproprioItem) :
    Except Unit (Option (String × Listing)) :=
  let attrVal := item.attrId.getD "null"
  if jsTestListing attrVal then
    let native := (jsSplit "-" attrVal).getD 1 "undefined"
    match item.priceText, item.imageSrc, item.linkHref with
    | some priceTxt, some src, some href =>
        .ok (some ("duproprio-" ++ native,
          { id := "duproprio-" ++ native
            price := parseIntJS (stripNonDigits priceTxt)
            city := item.city
            address := item.address
            description := item.description
            imageUrl := src
            url := href
            dateScanned := today
            source := "DuProprio" }))
    | _, _, _ => .error ()
  else .ok none

/-- The per-page item loop of the DuProprio scan: items are processed one
by one and assigned into the accumulator; a throw aborts the whole scan
with the listings accumulated so far (carried on the `.error` side). -/
def duproprioProcessItems (today : String) :
    List DuproprioItem → Store → Except Store Store
  | [], acc => .ok acc
  | item :: rest, acc =>
      match duproprioExtractItem today item with
      | .error _ => .error acc
      | .ok none => duproprioProcessItems today rest acc
      | .ok (some (k, l)) => duproprioProcessItems today rest (setKey acc k l)

/-- The `try` body of `scanDuproprioListings` (the do/while loop), over the
sequence of page states the browser shows.  The node query
`$$('...__item:not(.is-sold)')` drops sold items before the loop.  The
`Nat` is the `pageNumber` counter (starts at 1, incremented before each
navigation).  An empty page list models a failed navigation (the initial
`goto` or a next-page click that never settles): the pending await throws,
carrying the accumulated listings to the `catch`. -/
def duproprioBody (today : String) :
    List DuproprioPage → Store → Nat → Except (Store × Nat) (Store × Nat)
  | [], acc, n => .error (acc, n)
  | p :: rest, acc, n =>
      match duproprioProcessItems today (p.items.filter (fun i => !i.isSold)) acc with
      | .error partialAcc => .error (partialAcc, n)
      | .ok acc' =>
          if p.activeIsLast then .ok (acc', n)
          else duproprioBody today rest acc' (n + 1)

/-- `scanDuproprioListings` (src/scan.js lines 63-132): run the body and
catch any exception, returning the listings accumulated so far. -/
def scanDuproprioListings (today : String) (pages : List DuproprioPage) : Store :=
  match duproprioBody today pages [] 1 with
  | .ok (s, _) => s
  | .error (s, _) => s

/-- One `li[data-inscription-id]` node on a Sutton results page.  `isSold`
is the presence of a `.vendu` descendant; `details` is the details anchor's
(text, href) (`none` = node absent, throws); `image` is the photo img's
`src` property (`none` = node absent, throws); `dataPrix` is
`getAttribute('data-prix')` (`none` = `null`, making `parseInt` yield NaN). -/
structure SuttonItem where
  isSold : Bool
  inscriptionId : String
  dataPrix : Option String
  details : Option (String × String)
  address : Option String
  city : Option String
  image : Option String
deriving DecidableEq, Repr

/-- One Sutton results page: its items and whether the `.pagesuivante`
control carries the `.hidden` class (the terminal signal). -/
structure SuttonPage where
  items : List SuttonItem
  nextHidden : Bool
deriving DecidableEq, Repr

/-- Extraction of a single Sutton item inside the page-wide `evaluate`
(src/scan.js lines 154-177): sold items are skipped; a missing image or
details node throws, aborting the whole page's batch; the description is
the details text up to the first `" - "`, trimmed. -/
def suttonExtractItem (today : String) (it : SuttonItem) :
    Except Unit (Option (String × Listing)) :=
  if it.isSold then .ok none
  else
    match it.image, it.details with
    | some img, some (txt, href) =>
        .ok (some ("sutton-" ++ it.inscriptionId,
          { id := "sutton-" ++ it.inscriptionId
            price := it.dataPrix.bind parseIntJS
            city := it.city
            address := it.address
            description := some (jsTrim ((jsSplit " - " txt).headD txt))
            imageUrl := some img
            url := href
            dateScanned := today
            source := "Sutton" }))
    | _, _ => .error ()

/-- The page-wide `evaluate` of the Sutton scan (src/scan.js lines
151-180): build a fresh listings object from the page's items; any throw
rejects the whole batch (the page contributes nothing). -/
def suttonPageListings (today : String) :
    List SuttonItem → Store → Except Unit Store
  | [], acc => .ok acc
  | it :: rest, acc =>
      match suttonExtractItem today it with
      | .error _ => .error ()
      | .ok none => suttonPageListings today rest acc
      | .ok (some (k, l)) => suttonPageListings today rest (setKey acc k l)

/-- The `try` body of `scanSuttonListings` (the do/while loop).  Each page
batch is merged into the accumulator with `Object.assign`; the `Nat` is
the `pageNumber` counter.  An empty page list models a failed navigation,
throwing with the accumulated listings. -/
def suttonBody (today : String) :
    List SuttonPage → Store → Nat → Except (Store × Nat) (Store × Nat)
  | [], acc, n => .error (acc, n)
  | p :: rest, acc, n =>
      match suttonPageListings today p.items [] with
      | .error _ => .error (acc, n)
      | .ok pageL =>
          let acc' := objAssign acc pageL
          if p.nextHidden then .ok (acc', n)
          else suttonBody today rest acc' (n + 1)

/-- `scanSuttonListings` (src/scan.js lines 134-206): run the body and
catch any exception, returning the listings accumulated so far. -/
def scanSuttonListings (today : String) (pages : List SuttonPage) : Store :=
  match suttonBody today pages [] 1 with
  | .ok (s, _) => s
  | .error (s, _) => s

/-- One `[data-id="templateThumbnailItem"]` node on a Centris results
page.  `isSold` models a sold/unavailable marker on the node — the Centris
extractor never reads any such marker.  `detailsLink` is the
`a.a-more-detail` anchor as (`data-mlsnumber` attribute, `href`) (`none` =
node absent, throws; a `null` attribute concatenates as the string
`"null"`); `imageSrc` is the itemprop image's `src` (`none` = node absent,
throws); `priceContent` is the price node's `content` attribute (outer
`none` = node absent, throws; inner `none` = `null` attribute, NaN). -/
structure CentrisItem where
  isSold : Bool
  detailsLink : Option (Option String × String)
  address : Option String
  city : Option String
  imageSrc : Option String
  priceContent : Option (Option String)
deriving DecidableEq, Repr

/-- One Centris results page: its items and whether an active (clickable,
non-`.inactive`) "next" pager link is present. -/
structure CentrisPage where
  items : List CentrisItem
  hasActiveNext : Bool
deriving DecidableEq, Repr

/-- Extraction of a single Centris item (src/scan.js lines 234-257): a
missing details link, image or price node throws; records whose price is
outside `[minPrice, maxPrice]` are skipped — but a NaN price passes both
comparisons, since JS `NaN < x` and `NaN > x` are false. -/
def centrisExtractItem (today : String) (minPrice maxPrice : Int)
    (it : CentrisItem) : Except Unit (Option (String × Listing)) :=
  match it.detailsLink, it.imageSrc, it.priceContent with
  | some (mls, href), some src, some content =>
      let price := content.bind parseIntJS
      if jsNumLt price minPrice || jsNumGt price maxPrice then .ok none
      else
        let kid := "centris-" ++ mls.getD "null"
        .ok (some (kid,
          { id := kid
            price := price
            city := it.city
            address := it.address
            description := some ""
            imageUrl := some (centrisRewriteImage src)
            url := href
            dateScanned := today
            source := "Centris" }))
  | _, _, _ => .error ()

/-- The per-page item loop of the Centris `evaluate`: any throw rejects
the whole evaluated continuation (the adapter then returns `{}`). -/
def centrisPageItems (today : String) (minPrice maxPrice : Int) :
    List CentrisItem → Store → Except Unit Store
  | [], acc => .ok acc
  | it :: rest, acc =>
      match centrisExtractItem today minPrice maxPrice it with
      | .error _ => .error ()
      | .ok none => centrisPageItems today minPrice maxPrice rest acc
      | .ok (some (k, l)) =>
          centrisPageItems today minPrice maxPrice rest (setKey acc k l)

/-- The Centris `while` loop after the first page has been extracted:
`cur` is the currently displayed page.  The loop condition re-checks the
"next" link on the current page; when present, clicking it displays the
next page of the sequence (none left models a click that never re-renders:
the continuation never settles and the whole scan fails). -/
def centrisAfterFirst (today : String) (minPrice maxPrice : Int) :
    CentrisPage → List CentrisPage → Store → Except Unit Store
  | cur, rest, acc =>
      if cur.hasActiveNext = false then .ok acc
      else
        match rest with
        | [] => .error ()
        | next :: rest' =>
            match centrisPageItems today minPrice maxPrice next.items acc with
            | .error _ => .error ()
            | .ok acc' => centrisAfterFirst today minPrice maxPrice next rest' acc'

/-- The whole Centris `evaluate` (src/scan.js lines 218-263): the loop
condition is checked on the first page BEFORE anything is extracted, so a
single-page result set (no "next" link) yields an empty mapping. -/
def centrisBody (today : String) (minPrice maxPrice : Int) :
    List CentrisPage → Except Unit Store
  | [] => .error ()
  | first :: rest =>
      if first.hasActiveNext = false then .ok []
      else
        match centrisPageItems today minPrice maxPrice first.items [] with
        | .error _ => .error ()
        | .ok acc1 => centrisAfterFirst today minPrice maxPrice first rest acc1

/-- `scanCentrisListings` (src/scan.js lines 208-272): `scannedListings`
is initialized to `{}` and only assigned on a successful `evaluate`, so a
caught exception yields an empty mapping. -/
def scanCentrisListings (today : String) (minPrice maxPrice : Int)
    (pages : List CentrisPage) : Store :=
  match centrisBody today minPrice maxPrice pages with
  | .ok s => s
  | .error _ => []

/-- A JSON result line printed on stdout by the process
(`endWithSuccess` / `endWithError` shapes). -/
inductive OutJson where
  | success (message : String)
  | failure (message : String) (status : String)
deriving DecidableEq, Repr

/-- The observable effects of one run of the main IIFE. -/
structure RunEffects where
  printedJson : List OutJson
  emailCalled : Bool
  storeWritten : Option Store
  exitCode : Nat
deriving DecidableEq, Repr

/-- The external world a run observes: the injected date, the page
sequences each site serves, and the Centris price bounds from config. -/
structure ScanEnv where
  today : String
  duproprioPages : List DuproprioPage
  centrisPages : List CentrisPage
  minPrice : Int
  maxPrice : Int
  suttonPages : List SuttonPage
deriving Inhabited

/-- The merged mapping of the main IIFE:
`Object.assign(duProprioListings, centrisListings, suttonListings)`. -/
def scannedOf (env : ScanEnv) : Store :=
  objAssign
    (objAssign (scanDuproprioListings env.today env.duproprioPages)
      (scanCentrisListings env.today env.minPrice env.maxPrice env.centrisPages))
    (scanSuttonListings env.today env.suttonPages)

/-- The main IIFE (src/scan.js lines 19-61).  All three adapters catch
their own failures, `sendEmailNotification` is a no-op stub and the
`fs.writeFile` callback always resolves, so the `try` body cannot throw:
every run takes the success path.  That path prints no JSON result
(`endWithSuccess` is defined at lines 359-363 but never called) and the
process ends with the default exit code 0.  The email call and the store
write happen only when `Object.keys(newListings).length` is non-zero. -/
def mainRun (env : ScanEnv) (saved : Store) : RunEffects :=
  let scanned := scannedOf env
  let result := dedup scanned saved
  { printedJson := []
    emailCalled := result.1.length != 0
    storeWritten := if result.1.length != 0 then some result.2 else none
    exitCode := 0 }

/-- The textual output `endWithSuccess(message)` would print, were it
ever invoked (src/scan.js lines 359-363). -/
def endWithSuccessJson (message : String) : OutJson := .success message

/-- The textual output `endWithError(message)` prints before exiting 1
(src/scan.js lines 353-357). -/
def endWithErrorJson (message : String) (status : String) : OutJson :=
  .failure message status

/-- A sample listing as stored in `listings.json` (price 100000). -/
def exSavedListing : Listing :=
  { id := "duproprio-11", price := some 100000, city := some "Quebec"
    address := some "1 Main St", description := some "Old"
    imageUrl := some "http://img/old.jpg", url := "http://du/11"
    dateScanned := "2026-01-01", source := "DuProprio" }

/-- The same listing as freshly re-scanned (price now 200000). -/
def exScannedListing : Listing :=
  { id := "duproprio-11", price := some 200000, city := some "Quebec"
    address := some "1 Main St", description := some "New"
    imageUrl := some "http://img/new.jpg", url := "http://du/11"
    dateScanned := "2026-02-01", source := "DuProprio" }

/-- A second, genuinely new listing. -/
def exNewListing : Listing :=
  { id := "sutton-7", price := some 300000, city := some "Levis"
    address := some "2 Oak St", description := some "Nice"
    imageUrl := some "http://img/7.jpg", url := "http://su/7"
    dateScanned := "2026-02-01", source := "Sutton" }

/-- Merged scan mapping for the reconciliation counterexample. -/
def exMerged : Store :=
  [("duproprio-11", exScannedListing), ("sutton-7", exNewListing)]

/-- Persisted mapping for the reconciliation counterexample. -/
def exSaved : Store := [("duproprio-11", exSavedListing)]

/-- A DuProprio item whose price text holds no digits: `parseInt('')` is
NaN, yet the record is emitted. -/
def exNanPriceItem : DuproprioItem :=
  { isSold := false, attrId := some "listing-123"
    priceText := some "Price on request", city := some "Quebec"
    address := some "3 Elm St", description := some "Mystery"
    imageSrc := some (some "http://img/123.jpg")
    linkHref := some "http://du/123" }

/-- The single (terminal) DuProprio page carrying `exNanPriceItem`. -/
def exNanPricePage : DuproprioPage :=
  { items := [exNanPriceItem], activeIsLast := true }

/-- A Centris item carrying a sold/unavailable marker; its price is within
the configured bounds, and the extractor reads no sold marker. -/
def exSoldCentrisItem : CentrisItem :=
  { isSold := true, detailsLink := some (some "987", "http://ce/987")
    address := some "4 Pine St", city := some "Quebec"
    imageSrc := some "http://img/987.jpg"
    priceContent := some (some "250000") }

/-- A Centris page sequence: the first page is empty with an active "next"
link, the second holds the sold item and ends the loop. -/
def exCentrisPages : List CentrisPage :=
  [{ items := [], hasActiveNext := true },
   { items := [exSoldCentrisItem], hasActiveNext := false }]

/-- A well-formed DuProprio item (used by witnesses). -/
def exDuItem : DuproprioItem :=
  { isSold := false, attrId := some "listing-55"
    priceText := some "455 000 $", city := some "Quebec"
    address := some "5 Birch St", description := some "Cottage"
    imageSrc := some (some "http://img/55.jpg")
    linkHref := some "http://du/55" }

/-- A well-formed Sutton item (used by witnesses). -/
def exSuttonItem : SuttonItem :=
  { isSold := false, inscriptionId := "88", dataPrix := some "350000"
    details := some ("Maison - 6 Cedar St", "http://su/88")
    address := some "6 Cedar St", city := some "Levis"
    image := some "http://img/88.jpg" }

/-- The per-page item loop of the DuProprio scan restricted to the
no-throw case: the store it produces when every extraction succeeds
(items whose id fails the pattern are skipped). -/
def duproprioFoldItems (today : String) : List DuproprioItem → Store → Store
  | [], acc => acc
  | item :: rest, acc =>
      match duproprioExtractItem today item with
      | .ok (some (k, l)) => duproprioFoldItems today rest (setKey acc k l)
      | _ => duproprioFoldItems today rest acc

/-- The listings the DuProprio do/while loop accumulates over a page
sequence in the no-throw case (sold items dropped by the selector). -/
def duproprioPagesFold (today : String) : List DuproprioPage → Store → Store
  | [], acc => acc
  | p :: rest, acc =>
      duproprioPagesFold today rest
        (duproprioFoldItems today (p.items.filter (fun i => !i.isSold)) acc)

/-- The Sutton page batch in the no-throw case. -/
def suttonFoldItems (today : String) : List SuttonItem → Store → Store
  | [], acc => acc
  | it :: rest, acc =>
      match suttonExtractItem today it with
      | .ok (some (k, l)) => suttonFoldItems today rest (setKey acc k l)
      | _ => suttonFoldItems today rest acc

/-- The listings the Sutton do/while loop accumulates over a page
sequence in the no-throw case. -/
def suttonPagesFold (today : String) : List SuttonPage → Store → Store
  | [], acc => acc
  | p :: rest, acc =>
      suttonPagesFold today rest
        (objAssign acc (suttonFoldItems today p.items []))

/-- The record the DuProprio extractor produces from `exDuItem`. -/
def exDuListing : Listing :=
  { id := "duproprio-55", price := some 455000, city := some "Quebec"
    address := some "5 Birch St", description := some "Cottage"
    imageUrl := some "http://img/55.jpg", url := "http://du/55"
    dateScanned := "2026-02-01", source := "DuProprio" }

/-- The record the Sutton extractor produces from `exSuttonItem`. -/
def exSuttonListing : Listing :=
  { id := "sutton-88", price := some 350000, city := some "Levis"
    address := some "6 Cedar St", description := some "Maison"
    imageUrl := some "http://img/88.jpg", url := "http://su/88"
    dateScanned := "2026-02-01", source := "Sutton" }

/-- A single terminal DuProprio page holding `exDuItem`. -/
def exDuPage : DuproprioPage := { items := [exDuItem], activeIsLast := true }

/-- A single terminal Sutton page holding `exSuttonItem`. -/
def exSuttonPage : SuttonPage := { items := [exSuttonItem], nextHidden := true }

/-- A complete concrete run environment (used by witnesses): one
single-page DuProprio site, the two-page Centris sequence, and one
single-page Sutton site. -/
def exEnv : ScanEnv :=
  { today := "2026-02-01"
    duproprioPages := [exDuPage]
    centrisPages := exCentrisPages
    minPrice := 0
    maxPrice := 1000000
    suttonPages := [exSuttonPage] }

theorem lookupStore_setKey (s : Store) (k : String) (v : Listing) (k' : String) :
    lookupStore (setKey s k v) k' = if k' = k then some v else lookupStore s k' := by
  induction s with
  | nil =>
      by_cases hk : k' = k
      · simp [setKey, lookupStore, hk]
      · simp [setKey, lookupStore, hk, Ne.symm hk]
  | cons e rest ih =>
      by_cases he : e.1 = k
      · by_cases hk : k' = k
        · simp [setKey, lookupStore, he, hk]
        · simp [setKey, lookupStore, he, hk, Ne.symm hk]
      · by_cases hh : e.1 = k'
        · have : k' ≠ k := fun h => he (hh.trans h)
          simp [setKey, lookupStore, he, hh, this]
        · simp [setKey, lookupStore, he, hh, ih]

theorem isSome_lookupStore_iff (s : Store) (k : String) :
    (lookupStore s k).isSome ↔ k ∈ storeKeys s := by
  induction s with
  | nil => simp [lookupStore, storeKeys]
  | cons e rest ih =>
      by_cases he : e.1 = k
      · simp [lookupStore, storeKeys, he]
      · simp [lookupStore, storeKeys, he, ih, Ne.symm he]

theorem mem_storeKeys_setKey (s : Store) (k : String) (v : Listing) (k' : String)
    (h : k' ∈ storeKeys (setKey s k v)) : k' ∈ storeKeys s ∨ k' = k := by
  induction s with
  | nil =>
      simp [setKey, storeKeys] at h
      exact Or.inr h
  | cons e rest ih =>
      by_cases he : e.1 = k
      · simp [setKey, he, storeKeys] at h
        rcases h with h | h
        · exact Or.inr h
        · exact Or.inl (by simp [storeKeys, h])
      · simp [setKey, he, storeKeys] at h
        rcases h with h | h
        · exact Or.inl (by simp [storeKeys, h])
        · rcases ih (by simpa [storeKeys] using h) with h2 | h2
          · exact Or.inl (by simp [storeKeys]; exact Or.inr (by simpa [storeKeys] using h2))
          · exact Or.inr h2

theorem nodupKeys_cons (e : String × Listing) (rest : Store) :
    NodupKeys (e :: rest) ↔ e.1 ∉ storeKeys rest ∧ NodupKeys rest := by
  simp [NodupKeys, storeKeys, List.nodup_cons]

theorem nodupKeys_setKey (s : Store) (k : String) (v : Listing)
    (h : NodupKeys s) : NodupKeys (setKey s k v) := by
  induction s with
  | nil => simp [setKey, NodupKeys, storeKeys]
  | cons e rest ih =>
      rw [nodupKeys_cons] at h
      by_cases he : e.1 = k
      · have hsk : setKey (e :: rest) k v = (k, v) :: rest := by simp [setKey, he]
        rw [hsk, nodupKeys_cons]
        exact ⟨he ▸ h.1, h.2⟩
      · have hsk : setKey (e :: rest) k v = e :: setKey rest k v := by simp [setKey, he]
        rw [hsk, nodupKeys_cons]
        refine ⟨?_, ih h.2⟩
        intro hmem
        rcases mem_storeKeys_setKey rest k v e.1 hmem with h2 | h2
        · exact h.1 h2
        · exact he h2

theorem nodupKeys_objAssign (t b : Store) (h : NodupKeys t) :
    NodupKeys (objAssign t b) := by
  induction b generalizing t with
  | nil => simpa [objAssign] using h
  | cons e rest ih => simpa [objAssign] using ih _ (nodupKeys_setKey _ _ _ h)

theorem lookupStore_objAssign (t b : Store) (k : String) (h : NodupKeys b) :
    lookupStore (objAssign t b) k =
      match lookupStore b k with
      | some v => some v
      | none => lookupStore t k := by
  induction b generalizing t with
  | nil => simp [objAssign, lookupStore]
  | cons e rest ih =>
      have hparts := (nodupKeys_cons e rest).mp h
      have hr : NodupKeys rest := hparts.2
      by_cases he : e.1 = k
      · have hnone : lookupStore rest k = none := by
          cases hl : lookupStore rest k with
          | none => rfl
          | some v =>
              have hk : k ∈ storeKeys rest :=
                (isSome_lookupStore_iff rest k).mp (by simp [hl])
              exact absurd hk (he ▸ hparts.1)
        simp [objAssign, ih _ hr, hnone, lookupStore, he, lookupStore_setKey]
      · simp only [objAssign, ih _ hr]
        cases hl : lookupStore rest k with
        | none => simp [hl, lookupStore_setKey, Ne.symm he, lookupStore, he]
        | some v => simp [hl, lookupStore, he]

theorem isSome_lookupStore_objAssign (t b : Store) (k : String) :
    (lookupStore (objAssign t b) k).isSome
      ↔ (lookupStore t k).isSome ∨ (lookupStore b k).isSome := by
  induction b generalizing t with
  | nil => simp [objAssign, lookupStore]
  | cons e rest ih =>
      by_cases he : e.1 = k
      · simp [objAssign, ih, lookupStore_setKey, lookupStore, he]
      · simp [objAssign, ih, lookupStore_setKey, lookupStore, he, Ne.symm he]

theorem dedupLoop_saved_present (L : List Listing) (n s : Store) (id : String)
    (v : Listing) (h : lookupStore s id = some v) :
    lookupStore (dedupLoop L n s).2 id = some v := by
  induction L generalizing n s with
  | nil => simpa [dedupLoop] using h
  | cons l rest ih =>
      by_cases hl : (lookupStore s l.id).isSome
      · simpa [dedupLoop, hl] using ih n s h
      · simp only [dedupLoop, hl, Bool.false_eq_true, if_false]
        refine ih _ _ ?_
        rw [lookupStore_setKey]
        by_cases hid : id = l.id
        · rw [hid] at h
          rw [h] at hl
          simp at hl
        · simpa [hid] using h

theorem dedupLoop_saved_absent (L : List Listing) (n s : Store) (id : String)
    (h : lookupStore s id = none) :
    lookupStore (dedupLoop L n s).2 id = L.find? (fun l => l.id == id) := by
  induction L generalizing n s with
  | nil => simpa [dedupLoop, List.find?] using h
  | cons l rest ih =>
      by_cases hid : l.id = id
      · have hl : (lookupStore s l.id).isSome = false := by simp [hid, h]
        simp only [dedupLoop, hl, Bool.false_eq_true, if_false]
        have hset : lookupStore (setKey s l.id l) id = some l := by
          rw [lookupStore_setKey]
          simp [hid]
        rw [dedupLoop_saved_present rest _ _ id l hset]
        simp [List.find?, hid]
      · have hbeq : (l.id == id) = false := by
          simp only [beq_eq_false_iff_ne]
          exact hid
        by_cases hl : (lookupStore s l.id).isSome
        · simp only [dedupLoop, hl, if_true]
          rw [ih n s h]
          simp [List.find?, hbeq]
        · simp only [dedupLoop, hl, Bool.false_eq_true, if_false]
          have hset : lookupStore (setKey s l.id l) id = none := by
            rw [lookupStore_setKey]
            simpa [Ne.symm hid] using h
          rw [ih _ _ hset]
          simp [List.find?, hbeq]

theorem dedupLoop_skip_all (L : List Listing) (n s : Store)
    (h : ∀ l ∈ L, (lookupStore s l.id).isSome) : dedupLoop L n s = (n, s) := by
  induction L with
  | nil => rfl
  | cons l rest ih =>
      have hl := h l (by simp)
      simp [dedupLoop, hl, ih (fun x hx => h x (by simp [hx]))]

theorem dedupLoop_new (L : List Listing) (n s : Store) (id : String)
    (hsub : ∀ k, (lookupStore n k).isSome → (lookupStore s k).isSome) :
    lookupStore (dedupLoop L n s).1 id =
      match lookupStore n id with
      | some v => some v
      | none =>
          match lookupStore s id with
          | some _ => none
          | none => L.find? (fun l => l.id == id) := by
  induction L generalizing n s with
  | nil =>
      cases hn : lookupStore n id with
      | some v => simp [dedupLoop, hn]
      | none =>
          cases hs : lookupStore s id with
          | some v => simp [dedupLoop, hn, hs]
          | none => simp [dedupLoop, hn, hs, List.find?]
  | cons l rest ih =>
      by_cases hl : (lookupStore s l.id).isSome
      · simp only [dedupLoop, hl, if_true]
        rw [ih n s hsub]
        cases hn : lookupStore n id with
        | some v => simp
        | none =>
            cases hs : lookupStore s id with
            | some v => simp
            | none =>
                have hid : (l.id == id) = false := by
                  simp only [beq_eq_false_iff_ne]
                  intro hh
                  rw [hh, hs] at hl
                  simp at hl
                simp [List.find?, hid]
      · simp only [dedupLoop, hl, Bool.false_eq_true, if_false]
        have hsnone : lookupStore s l.id = none := by
          cases hx : lookupStore s l.id with
          | none => rfl
          | some v => simp [hx] at hl
        have hsub' : ∀ k, (lookupStore (setKey n l.id l) k).isSome →
            (lookupStore (setKey s l.id l) k).isSome := by
          intro k hk
          rw [lookupStore_setKey] at hk ⊢
          by_cases hkk : k = l.id
          · simp [hkk]
          · simp only [hkk, if_false] at hk ⊢
            exact hsub k hk
        rw [ih _ _ hsub']
        by_cases hid : id = l.id
        · subst hid
          have hn : lookupStore n l.id = none := by
            cases hx : lookupStore n l.id with
            | none => rfl
            | some v =>
                have h2 := hsub l.id (by simp [hx])
                rw [hsnone] at h2
                simp at h2
          have hset : lookupStore (setKey n l.id l) l.id = some l := by
            rw [lookupStore_setKey]
            simp
          simp [hset, hn, hsnone, List.find?]
        · have hbeq : (l.id == id) = false := by
            simp only [beq_eq_false_iff_ne]
            exact Ne.symm hid
          rw [lookupStore_setKey, lookupStore_setKey]
          simp only [hid, if_false]
          cases hn : lookupStore n id with
          | some v => simp
          | none =>
              cases hs : lookupStore s id with
              | some v => simp
              | none => simp [List.find?, hbeq]

theorem find?_values_eq_lookup (M : Store) (id : String)
    (hWF : ∀ e ∈ M, e.2.id = e.1) :
    (M.map Prod.snd).find? (fun l => l.id == id) = lookupStore M id := by
  induction M with
  | nil => simp [lookupStore]
  | cons e rest ih =>
      have he := hWF e (by simp)
      by_cases hid : e.1 = id
      · simp [List.find?, lookupStore, he, hid]
      · have hbeq : (e.1 == id) = false := by
          simp only [beq_eq_false_iff_ne]
          exact hid
        simp [List.find?, lookupStore, he, hbeq, ih (fun x hx => hWF x (by simp [hx]))]

/-- C1, counterexample: with merged mapping `exMerged` (which re-scans
listing `duproprio-11` at price 200000) and persisted mapping `exSaved`
(which holds `duproprio-11` at price 100000), the claim
`updated[id] == M[id]` for `id = "duproprio-11" ∈ M` is false: the dedup
loop `continue`s over already-saved ids, so the stale saved record wins. -/
theorem dedup_refresh_counterexample :
    (lookupStore exMerged "duproprio-11").isSome ∧
    lookupStore (dedup exMerged exSaved).2 "duproprio-11" ≠
      lookupStore exMerged "duproprio-11" := by
  decide

/-- C1 (amended): `new = {id ∈ M : id ∉ P}` with `new[id] = M[id]`, and the
updated persisted mapping satisfies `updated[id] = P[id]` for every
`id ∈ P` (even when `id ∈ M`: no refresh-on-rescan) and
`updated[id] = M[id]` only for `id ∈ M ∖ P`. -/
theorem dedup_reconciliation (M P : Store)
    (hWF : ∀ e ∈ M, e.2.id = e.1) (id : String) :
    lookupStore (dedup M P).1 id =
      (if (lookupStore P id).isSome then none else lookupStore M id) ∧
    lookupStore (dedup M P).2 id =
      (if (lookupStore P id).isSome then lookupStore P id
       else lookupStore M id) := by
  constructor
  · rw [dedup, dedupLoop_new _ _ _ _ (by intro k hk; simp [lookupStore] at hk)]
    cases hp : lookupStore P id with
    | some v => simp [lookupStore, hp]
    | none => simp [lookupStore, hp, find?_values_eq_lookup M id hWF]
  · cases hp : lookupStore P id with
    | some v =>
        rw [dedup, dedupLoop_saved_present _ _ _ _ _ hp]
        simp [hp]
    | none =>
        rw [dedup, dedupLoop_saved_absent _ _ _ _ hp]
        simp [hp, find?_values_eq_lookup M id hWF]

theorem dedup_reconciliation_witness :
    lookupStore (dedup exMerged exSaved).1 "sutton-7" =
      (if (lookupStore exSaved "sutton-7").isSome then none
       else lookupStore exMerged "sutton-7") ∧
    lookupStore (dedup exMerged exSaved).2 "sutton-7" =
      (if (lookupStore exSaved "sutton-7").isSome then lookupStore exSaved "sutton-7"
       else lookupStore exMerged "sutton-7") :=
  dedup_reconciliation exMerged exSaved (by decide) "sutton-7"

/-- C5: running the reconciliation a second time with the same merged
mapping against the updated persisted mapping from the first run yields an
empty new-listings object. -/
theorem dedup_idempotent (M P : Store) : (dedup M (dedup M P).2).1 = [] := by
  have hall : ∀ l ∈ M.map Prod.snd, (lookupStore (dedup M P).2 l.id).isSome := by
    intro l hl
    cases hp : lookupStore P l.id with
    | some v => simp [dedup, dedupLoop_saved_present (M.map Prod.snd) [] P l.id v hp]
    | none =>
        rw [dedup, dedupLoop_saved_absent _ _ _ _ hp, List.find?_isSome]
        exact ⟨l, hl, by simp⟩
  rw [dedup, dedupLoop_skip_all _ _ _ hall]

/-- C10: the reconciliation never removes (nor alters) a persisted entry:
every id present in the persisted mapping before the run is still present,
with the same record, in the updated persisted mapping. -/
theorem dedup_saved_monotone (M P : Store) (id : String) (v : Listing)
    (h : lookupStore P id = some v) :
    lookupStore (dedup M P).2 id = some v := by
  rw [dedup]
  exact dedupLoop_saved_present _ _ _ _ _ h

theorem dedup_saved_monotone_witness :
    lookupStore (dedup exMerged exSaved).2 "duproprio-11" = some exSavedListing :=
  dedup_saved_monotone exMerged exSaved "duproprio-11" exSavedListing (by decide)

/-- C2 (code bug): the main IIFE never invokes `endWithSuccess`, so a
successful run (which, in the model, every run is: all adapters catch
their own failures) prints NO `{ success: true, message }` JSON object; it
merely finishes with the default exit code 0. -/
theorem mainRun_prints_no_success_json (env : ScanEnv) (saved : Store) :
    (mainRun env saved).exitCode = 0 ∧
    ∀ m, endWithSuccessJson m ∉ (mainRun env saved).printedJson := by
  refine ⟨rfl, ?_⟩
  intro m
  simp [mainRun, endWithSuccessJson]

/-- C6: the email call happens exactly when the new-listings object is
non-empty, and the on-disk store is written (with the updated saved
mapping) exactly in that same case; when `new = {}` the store write is
skipped, leaving the on-disk mapping untouched. -/
theorem mainRun_write_notify_iff (env : ScanEnv) (saved : Store) :
    ((mainRun env saved).emailCalled = true ↔
      (dedup (scannedOf env) saved).1 ≠ []) ∧
    (mainRun env saved).storeWritten =
      (if (dedup (scannedOf env) saved).1 = [] then none
       else some (dedup (scannedOf env) saved).2) := by
  constructor
  · by_cases h : (dedup (scannedOf env) saved).1 = [] <;>
      simp [mainRun, h, List.length_eq_zero]
  · by_cases h : (dedup (scannedOf env) saved).1 = [] <;>
      simp [mainRun, h, List.length_eq_zero]

theorem duproprioExtractItem_ok (today : String) (it : DuproprioItem)
    (k : String) (l : Listing)
    (h : duproprioExtractItem today it = .ok (some (k, l))) :
    jsTestListing (it.attrId.getD "null") = true ∧
    k = "duproprio-" ++ (jsSplit "-" (it.attrId.getD "null")).getD 1 "undefined" ∧
    l.id = k ∧
    (∃ t, it.priceText = some t ∧ l.price = parseIntJS (stripNonDigits t)) ∧
    (∃ src, it.imageSrc = some src ∧ l.imageUrl = src) ∧
    (∃ href, it.linkHref = some href ∧ l.url = href) ∧
    l.source = "DuProprio" ∧ l.dateScanned = today := by
  unfold duproprioExtractItem at h
  by_cases ht : jsTestListing (it.attrId.getD "null")
  · simp only [ht, if_true] at h
    cases hp : it.priceText with
    | none => simp [hp] at h
    | some t =>
        cases hi : it.imageSrc with
        | none => simp [hp, hi] at h
        | some src =>
            cases hl2 : it.linkHref with
            | none => simp [hp, hi, hl2] at h
            | some href =>
                simp only [hp, hi, hl2, Except.ok.injEq, Option.some.injEq,
                  Prod.mk.injEq] at h
                obtain ⟨hk, hl⟩ := h
                subst hl
                exact ⟨ht, hk.symm, hk.symm ▸ rfl, ⟨t, rfl, rfl⟩,
                  ⟨src, rfl, rfl⟩, ⟨href, rfl, rfl⟩, rfl, rfl⟩
  · simp [ht] at h

theorem duproprioProcessItems_lookup (today : String)
    (items : List DuproprioItem) (acc r : Store) (k : String) (l : Listing)
    (hr : duproprioProcessItems today items acc = .ok r ∨
          duproprioProcessItems today items acc = .error r)
    (h : lookupStore r k = some l) :
    lookupStore acc k = some l ∨
      ∃ it ∈ items, duproprioExtractItem today it = .ok (some (k, l)) := by
  induction items generalizing acc with
  | nil =>
      rcases hr with hr | hr
      · simp only [duproprioProcessItems, Except.ok.injEq] at hr
        subst hr
        exact Or.inl h
      · simp [duproprioProcessItems] at hr
  | cons it rest ih =>
      cases hx : duproprioExtractItem today it with
      | error e =>
          rcases hr with hr | hr
          · simp [duproprioProcessItems, hx] at hr
          · simp only [duproprioProcessItems, hx, Except.error.injEq] at hr
            subst hr
            exact Or.inl h
      | ok o =>
          cases o with
          | none =>
              simp only [duproprioProcessItems, hx] at hr
              rcases ih acc hr with h1 | ⟨x, hx1, hx2⟩
              · exact Or.inl h1
              · exact Or.inr ⟨x, by simp [hx1], hx2⟩
          | some kl =>
              obtain ⟨k', l'⟩ := kl
              simp only [duproprioProcessItems, hx] at hr
              rcases ih (setKey acc k' l') hr with h1 | ⟨x, hx1, hx2⟩
              · rw [lookupStore_setKey] at h1
                by_cases hkk : k = k'
                · subst hkk
                  simp at h1
                  subst h1
                  exact Or.inr ⟨it, by simp, hx⟩
                · simp only [hkk, if_false] at h1
                  exact Or.inl h1
              · exact Or.inr ⟨x, by simp [hx1], hx2⟩

theorem duproprioBody_lookup (today : String) (pages : List DuproprioPage)
    (acc : Store) (n : Nat) (r : Store) (m : Nat) (k : String) (l : Listing)
    (hr : duproprioBody today pages acc n = .ok (r, m) ∨
          duproprioBody today pages acc n = .error (r, m))
    (h : lookupStore r k = some l) :
    lookupStore acc k = some l ∨
      ∃ p ∈ pages, ∃ it ∈ p.items, it.isSold = false ∧
        duproprioExtractItem today it = .ok (some (k, l)) := by
  induction pages generalizing acc n with
  | nil =>
      rcases hr with hr | hr
      · simp [duproprioBody] at hr
      · simp only [duproprioBody, Except.error.injEq, Prod.mk.injEq] at hr
        rw [hr.1]
        exact Or.inl h
  | cons p rest ih =>
      have hmemfilter : ∀ x, x ∈ p.items.filter (fun i => !i.isSold) →
          x ∈ p.items ∧ x.isSold = false := by
        intro x hx
        have := List.mem_filter.mp hx
        exact ⟨this.1, by simpa [Bool.not_eq_true'] using this.2⟩
      cases hpi : duproprioProcessItems today
          (p.items.filter (fun i => !i.isSold)) acc with
      | error pacc =>
          have hracc : r = pacc := by
            rcases hr with hr | hr
            · simp [duproprioBody, hpi] at hr
            · simp only [duproprioBody, hpi, Except.error.injEq, Prod.mk.injEq] at hr
              exact hr.1.symm
          subst hracc
          rcases duproprioProcessItems_lookup today _ acc r k l (Or.inr hpi) h with
            h1 | ⟨x, hx1, hx2⟩
          · exact Or.inl h1
          · obtain ⟨hxm, hxs⟩ := hmemfilter x hx1
            exact Or.inr ⟨p, by simp, x, hxm, hxs, hx2⟩
      | ok acc' =>
          by_cases hlast : p.activeIsLast
          · have hracc : r = acc' := by
              rcases hr with hr | hr
              · simp only [duproprioBody, hpi, hlast, if_true, Except.ok.injEq,
                  Prod.mk.injEq] at hr
                exact hr.1.symm
              · simp [duproprioBody, hpi, hlast] at hr
            subst hracc
            rcases duproprioProcessItems_lookup today _ acc r k l (Or.inl hpi) h with
              h1 | ⟨x, hx1, hx2⟩
            · exact Or.inl h1
            · obtain ⟨hxm, hxs⟩ := hmemfilter x hx1
              exact Or.inr ⟨p, by simp, x, hxm, hxs, hx2⟩
          · have hr' : duproprioBody today rest acc' (n + 1) = .ok (r, m) ∨
                duproprioBody today rest acc' (n + 1) = .error (r, m) := by
              rcases hr with hr | hr
              · exact Or.inl (by simpa [duproprioBody, hpi, hlast] using hr)
              · exact Or.inr (by simpa [duproprioBody, hpi, hlast] using hr)
            rcases ih acc' (n + 1) hr' with h1 | ⟨p', hp', x, hxm, hxs, hx2⟩
            · rcases duproprioProcessItems_lookup today _ acc acc' k l (Or.inl hpi) h1 with
                h2 | ⟨x, hx1, hx2⟩
              · exact Or.inl h2
              · obtain ⟨hxm, hxs⟩ := hmemfilter x hx1
                exact Or.inr ⟨p, by simp, x, hxm, hxs, hx2⟩
            · exact Or.inr ⟨p', by simp [hp'], x, hxm, hxs, hx2⟩

theorem scanDuproprio_lookup (today : String) (pages : List DuproprioPage)
    (k : String) (l : Listing)
    (h : lookupStore (scanDuproprioListings today pages) k = some l) :
    ∃ p ∈ pages, ∃ it ∈ p.items, it.isSold = false ∧
      duproprioExtractItem today it = .ok (some (k, l)) := by
  unfold scanDuproprioListings at h
  cases hb : duproprioBody today pages [] 1 with
  | ok rm =>
      obtain ⟨r, m⟩ := rm
      rw [hb] at h
      simp only at h
      rcases duproprioBody_lookup today pages [] 1 r m k l (Or.inl hb) h with h1 | hex
      · simp [lookupStore] at h1
      · exact hex
  | error rm =>
      obtain ⟨r, m⟩ := rm
      rw [hb] at h
      simp only at h
      rcases duproprioBody_lookup today pages [] 1 r m k l (Or.inr hb) h with h1 | hex
      · simp [lookupStore] at h1
      · exact hex

theorem suttonExtractItem_ok (today : String) (it : SuttonItem)
    (k : String) (l : Listing)
    (h : suttonExtractItem today it = .ok (some (k, l))) :
    it.isSold = false ∧
    k = "sutton-" ++ it.inscriptionId ∧
    l.id = k ∧
    l.price = it.dataPrix.bind parseIntJS ∧
    (∃ img, it.image = some img ∧ l.imageUrl = some img) ∧
    (∃ txt href, it.details = some (txt, href) ∧ l.url = href) ∧
    l.source = "Sutton" ∧ l.dateScanned = today := by
  unfold suttonExtractItem at h
  by_cases hs : it.isSold
  · simp [hs] at h
  · simp only [hs, Bool.false_eq_true, if_false] at h
    cases hi : it.image with
    | none => simp [hi] at h
    | some img =>
        cases hd : it.details with
        | none => simp [hi, hd] at h
        | some td =>
            obtain ⟨txt, href⟩ := td
            simp only [hi, hd, Except.ok.injEq, Option.some.injEq,
              Prod.mk.injEq] at h
            obtain ⟨hk, hl⟩ := h
            subst hl
            exact ⟨by simpa using hs, hk.symm, hk.symm ▸ rfl, rfl,
              ⟨img, rfl, rfl⟩, ⟨txt, href, rfl, rfl⟩, rfl, rfl⟩

theorem suttonPageListings_lookup (today : String) (items : List SuttonItem)
    (acc r : Store) (k : String) (l : Listing)
    (hr : suttonPageListings today items acc = .ok r)
    (h : lookupStore r k = some l) :
    lookupStore acc k = some l ∨
      ∃ it ∈ items, suttonExtractItem today it = .ok (some (k, l)) := by
  induction items generalizing acc with
  | nil =>
      simp only [suttonPageListings, Except.ok.injEq] at hr
      subst hr
      exact Or.inl h
  | cons it rest ih =>
      cases hx : suttonExtractItem today it with
      | error e => simp [suttonPageListings, hx] at hr
      | ok o =>
          cases o with
          | none =>
              simp only [suttonPageListings, hx] at hr
              rcases ih acc hr with h1 | ⟨x, hx1, hx2⟩
              · exact Or.inl h1
              · exact Or.inr ⟨x, by simp [hx1], hx2⟩
          | some kl =>
              obtain ⟨k', l'⟩ := kl
              simp only [suttonPageListings, hx] at hr
              rcases ih _ hr with h1 | ⟨x, hx1, hx2⟩
              · rw [lookupStore_setKey] at h1
                by_cases hkk : k = k'
                · subst hkk
                  simp at h1
                  subst h1
                  exact Or.inr ⟨it, by simp, hx⟩
                · simp only [hkk, if_false] at h1
                  exact Or.inl h1
              · exact Or.inr ⟨x, by simp [hx1], hx2⟩

theorem suttonPageListings_nodup (today : String) (items : List SuttonItem)
    (acc r : Store) (hacc : NodupKeys acc)
    (hr : suttonPageListings today items acc = .ok r) : NodupKeys r := by
  induction items generalizing acc with
  | nil =>
      simp only [suttonPageListings, Except.ok.injEq] at hr
      subst hr
      exact hacc
  | cons it rest ih =>
      cases hx : suttonExtractItem today it with
      | error e => simp [suttonPageListings, hx] at hr
      | ok o =>
          cases o with
          | none => exact ih acc hacc (by simpa [suttonPageListings, hx] using hr)
          | some kl =>
              obtain ⟨k', l'⟩ := kl
              exact ih _ (nodupKeys_setKey _ _ _ hacc)
                (by simpa [suttonPageListings, hx] using hr)

theorem lookupStore_objAssign_cases (t b : Store) (k : String)
    (hb : NodupKeys b) (v : Listing)
    (h : lookupStore (objAssign t b) k = some v) :
    lookupStore b k = some v ∨
      (lookupStore b k = none ∧ lookupStore t k = some v) := by
  rw [lookupStore_objAssign t b k hb] at h
  cases hl : lookupStore b k with
  | some w =>
      rw [hl] at h
      simp only at h
      exact Or.inl h
  | none =>
      rw [hl] at h
      simp only at h
      exact Or.inr ⟨rfl, h⟩

theorem suttonBody_lookup (today : String) (pages : List SuttonPage)
    (acc : Store) (n : Nat) (r : Store) (m : Nat) (k : String) (l : Listing)
    (hr : suttonBody today pages acc n = .ok (r, m) ∨
          suttonBody today pages acc n = .error (r, m))
    (h : lookupStore r k = some l) :
    lookupStore acc k = some l ∨
      ∃ p ∈ pages, ∃ it ∈ p.items,
        suttonExtractItem today it = .ok (some (k, l)) := by
  induction pages generalizing acc n with
  | nil =>
      rcases hr with hr | hr
      · simp [suttonBody] at hr
      · simp only [suttonBody, Except.error.injEq, Prod.mk.injEq] at hr
        rw [hr.1]
        exact Or.inl h
  | cons p rest ih =>
      cases hpl : suttonPageListings today p.items [] with
      | error e =>
          have hracc : r = acc := by
            rcases hr with hr | hr
            · simp [suttonBody, hpl] at hr
            · simp only [suttonBody, hpl, Except.error.injEq, Prod.mk.injEq] at hr
              exact hr.1.symm
          subst hracc
          exact Or.inl h
      | ok pageL =>
          have hnodup : NodupKeys pageL :=
            suttonPageListings_nodup today p.items [] pageL
              (by simp [NodupKeys, storeKeys]) hpl
          have hsplit : ∀ hacc : lookupStore (objAssign acc pageL) k = some l,
              lookupStore acc k = some l ∨
                ∃ it ∈ p.items, suttonExtractItem today it = .ok (some (k, l)) := by
            intro hacc
            rcases lookupStore_objAssign_cases acc pageL k hnodup l hacc with
              hpg | ⟨_, hac⟩
            · rcases suttonPageListings_lookup today p.items [] pageL k l hpl hpg with
                h1 | hex
              · simp [lookupStore] at h1
              · exact Or.inr hex
            · exact Or.inl hac
          by_cases hlast : p.nextHidden
          · have hracc : r = objAssign acc pageL := by
              rcases hr with hr | hr
              · simp only [suttonBody, hpl, hlast, if_true, Except.ok.injEq,
                  Prod.mk.injEq] at hr
                exact hr.1.symm
              · simp [suttonBody, hpl, hlast] at hr
            subst hracc
            rcases hsplit h with h1 | hex
            · exact Or.inl h1
            · exact Or.inr ⟨p, by simp, hex.choose, hex.choose_spec.1,
                hex.choose_spec.2⟩
          · have hr' : suttonBody today rest (objAssign acc pageL) (n + 1) = .ok (r, m) ∨
                suttonBody today rest (objAssign acc pageL) (n + 1) = .error (r, m) := by
              rcases hr with hr | hr
              · exact Or.inl (by simpa [suttonBody, hpl, hlast] using hr)
              · exact Or.inr (by simpa [suttonBody, hpl, hlast] using hr)
            rcases ih _ (n + 1) hr' with h1 | ⟨p', hp', x, hxm, hx2⟩
            · rcases hsplit h1 with h2 | ⟨x, hx1, hx2⟩
              · exact Or.inl h2
              · exact Or.inr ⟨p, by simp, x, hx1, hx2⟩
            · exact Or.inr ⟨p', by simp [hp'], x, hxm, hx2⟩

theorem scanSutton_lookup (today : String) (pages : List SuttonPage)
    (k : String) (l : Listing)
    (h : lookupStore (scanSuttonListings today pages) k = some l) :
    ∃ p ∈ pages, ∃ it ∈ p.items,
      suttonExtractItem today it = .ok (some (k, l)) := by
  unfold scanSuttonListings at h
  cases hb : suttonBody today pages [] 1 with
  | ok rm =>
      obtain ⟨r, m⟩ := rm
      rw [hb] at h
      simp only at h
      rcases suttonBody_lookup today pages [] 1 r m k l (Or.inl hb) h with h1 | hex
      · simp [lookupStore] at h1
      · exact hex
  | error rm =>
      obtain ⟨r, m⟩ := rm
      rw [hb] at h
      simp only at h
      rcases suttonBody_lookup today pages [] 1 r m k l (Or.inr hb) h with h1 | hex
      · simp [lookupStore] at h1
      · exact hex

theorem centrisExtractItem_ok (today : String) (minP maxP : Int)
    (it : CentrisItem) (k : String) (l : Listing)
    (h : centrisExtractItem today minP maxP it = .ok (some (k, l))) :
    (∃ mls href, it.detailsLink = some (mls, href) ∧
        k = "centris-" ++ mls.getD "null" ∧ l.url = href) ∧
    l.id = k ∧
    (∃ content, it.priceContent = some content ∧
        l.price = content.bind parseIntJS ∧
        jsNumLt (content.bind parseIntJS) minP = false ∧
        jsNumGt (content.bind parseIntJS) maxP = false) ∧
    (∃ src, it.imageSrc = some src ∧
        l.imageUrl = some (centrisRewriteImage src)) ∧
    l.source = "Centris" ∧ l.dateScanned = today := by
  unfold centrisExtractItem at h
  cases hd : it.detailsLink with
  | none => simp [hd] at h
  | some dl =>
      obtain ⟨mls, href⟩ := dl
      cases hi : it.imageSrc with
      | none => simp [hd, hi] at h
      | some src =>
          cases hp : it.priceContent with
          | none => simp [hd, hi, hp] at h
          | some content =>
              by_cases h1 : jsNumLt (content.bind parseIntJS) minP
              · simp [hd, hi, hp, h1] at h
              · by_cases h2 : jsNumGt (content.bind parseIntJS) maxP
                · simp [hd, hi, hp, h1, h2] at h
                · rw [Bool.not_eq_true] at h1 h2
                  simp only [hd, hi, hp, h1, h2, Bool.or_false,
                    Bool.false_eq_true, if_false, Except.ok.injEq,
                    Option.some.injEq, Prod.mk.injEq] at h
                  obtain ⟨hk, hl⟩ := h
                  subst hl
                  exact ⟨⟨mls, href, rfl, hk.symm, rfl⟩, hk.symm ▸ rfl,
                    ⟨content, rfl, rfl, h1, h2⟩, ⟨src, rfl, rfl⟩, rfl, rfl⟩

theorem centrisPageItems_lookup (today : String) (minP maxP : Int)
    (items : List CentrisItem) (acc r : Store) (k : String) (l : Listing)
    (hr : centrisPageItems today minP maxP items acc = .ok r)
    (h : lookupStore r k = some l) :
    lookupStore acc k = some l ∨
      ∃ it ∈ items, centrisExtractItem today minP maxP it = .ok (some (k, l)) := by
  induction items generalizing acc with
  | nil =>
      simp only [centrisPageItems, Except.ok.injEq] at hr
      subst hr
      exact Or.inl h
  | cons it rest ih =>
      cases hx : centrisExtractItem today minP maxP it with
      | error e => simp [centrisPageItems, hx] at hr
      | ok o =>
          cases o with
          | none =>
              simp only [centrisPageItems, hx] at hr
              rcases ih acc hr with h1 | ⟨x, hx1, hx2⟩
              · exact Or.inl h1
              · exact Or.inr ⟨x, by simp [hx1], hx2⟩
          | some kl =>
              obtain ⟨k', l'⟩ := kl
              simp only [centrisPageItems, hx] at hr
              rcases ih _ hr with h1 | ⟨x, hx1, hx2⟩
              · rw [lookupStore_setKey] at h1
                by_cases hkk : k = k'
                · subst hkk
                  simp at h1
                  subst h1
                  exact Or.inr ⟨it, by simp, hx⟩
                · simp only [hkk, if_false] at h1
                  exact Or.inl h1
              · exact Or.inr ⟨x, by simp [hx1], hx2⟩

theorem centrisAfterFirst_lookup (today : String) (minP maxP : Int)
    (rest : List CentrisPage) (cur : CentrisPage) (acc r : Store)
    (k : String) (l : Listing)
    (hr : centrisAfterFirst today minP maxP cur rest acc = .ok r)
    (h : lookupStore r k = some l) :
    lookupStore acc k = some l ∨
      ∃ p ∈ rest, ∃ it ∈ p.items,
        centrisExtractItem today minP maxP it = .ok (some (k, l)) := by
  induction rest generalizing cur acc with
  | nil =>
      by_cases hn : cur.hasActiveNext = false
      · simp only [centrisAfterFirst, hn, if_true, Except.ok.injEq] at hr
        subst hr
        exact Or.inl h
      · simp [centrisAfterFirst, hn] at hr
  | cons nxt rest' ih =>
      by_cases hn : cur.hasActiveNext = false
      · simp only [centrisAfterFirst, hn, if_true, Except.ok.injEq] at hr
        subst hr
        exact Or.inl h
      · simp only [centrisAfterFirst, hn, if_false] at hr
        cases hpi : centrisPageItems today minP maxP nxt.items acc with
        | error e => simp [hpi] at hr
        | ok acc' =>
            rw [hpi] at hr
            simp only at hr
            rcases ih nxt acc' hr with h1 | ⟨p', hp', x, hxm, hx2⟩
            · rcases centrisPageItems_lookup today minP maxP nxt.items acc acc' k l
                hpi h1 with h2 | ⟨x, hx1, hx2⟩
              · exact Or.inl h2
              · exact Or.inr ⟨nxt, by simp, x, hx1, hx2⟩
            · exact Or.inr ⟨p', by simp [hp'], x, hxm, hx2⟩

theorem centrisBody_lookup (today : String) (minP maxP : Int)
    (pages : List CentrisPage) (r : Store) (k : String) (l : Listing)
    (hr : centrisBody today minP maxP pages = .ok r)
    (h : lookupStore r k = some l) :
    ∃ p ∈ pages, ∃ it ∈ p.items,
      centrisExtractItem today minP maxP it = .ok (some (k, l)) := by
  cases pages with
  | nil => simp [centrisBody] at hr
  | cons first rest =>
      by_cases hn : first.hasActiveNext = false
      · simp only [centrisBody, hn, if_true, Except.ok.injEq] at hr
        subst hr
        simp [lookupStore] at h
      · simp only [centrisBody, hn, if_false] at hr
        cases hpi : centrisPageItems today minP maxP first.items [] with
        | error e => simp [hpi] at hr
        | ok acc1 =>
            rw [hpi] at hr
            simp only at hr
            rcases centrisAfterFirst_lookup today minP maxP rest first acc1 r k l
              hr h with h1 | ⟨p', hp', x, hxm, hx2⟩
            · rcases centrisPageItems_lookup today minP maxP first.items [] acc1 k l
                hpi h1 with h2 | ⟨x, hx1, hx2⟩
              · simp [lookupStore] at h2
              · exact ⟨first, by simp, x, hx1, hx2⟩
            · exact ⟨p', by simp [hp'], x, hxm, hx2⟩

theorem scanCentris_lookup (today : String) (minP maxP : Int)
    (pages : List CentrisPage) (k : String) (l : Listing)
    (h : lookupStore (scanCentrisListings today minP maxP pages) k = some l) :
    ∃ p ∈ pages, ∃ it ∈ p.items,
      centrisExtractItem today minP maxP it = .ok (some (k, l)) := by
  unfold scanCentrisListings at h
  cases hb : centrisBody today minP maxP pages with
  | ok s =>
      rw [hb] at h
      simp only at h
      exact centrisBody_lookup today minP maxP pages s k l hb h
  | error e =>
      rw [hb] at h
      simp [lookupStore] at h

theorem ne_append_of_head_ne (p q a b : String) (c d : Char)
    (lp lq : List Char) (hp : p.data = c :: lp) (hq : q.data = d :: lq)
    (hcd : c ≠ d) : p ++ a ≠ q ++ b := by
  intro h
  have h2 : (p ++ a).data = (q ++ b).data := by rw [h]
  rw [String.data_append, String.data_append, hp, hq] at h2
  simp only [List.cons_append, List.cons.injEq] at h2
  exact hcd h2.1

/-- C8: every id in a source adapter's output mapping starts with that
adapter's own namespace ("duproprio-", "sutton-", "centris-"), and
consequently no key can be produced by two distinct sources at once, so
the merged mapping has no cross-source collisions. -/
theorem adapter_ids_namespaced (env : ScanEnv) (k : String) :
    ((lookupStore (scanDuproprioListings env.today env.duproprioPages) k).isSome →
      ∃ r, k = "duproprio-" ++ r) ∧
    ((lookupStore (scanSuttonListings env.today env.suttonPages) k).isSome →
      ∃ r, k = "sutton-" ++ r) ∧
    ((lookupStore (scanCentrisListings env.today env.minPrice env.maxPrice
        env.centrisPages) k).isSome → ∃ r, k = "centris-" ++ r) ∧
    ¬((lookupStore (scanDuproprioListings env.today env.duproprioPages) k).isSome ∧
      (lookupStore (scanSuttonListings env.today env.suttonPages) k).isSome) ∧
    ¬((lookupStore (scanDuproprioListings env.today env.duproprioPages) k).isSome ∧
      (lookupStore (scanCentrisListings env.today env.minPrice env.maxPrice
        env.centrisPages) k).isSome) ∧
    ¬((lookupStore (scanSuttonListings env.today env.suttonPages) k).isSome ∧
      (lookupStore (scanCentrisListings env.today env.minPrice env.maxPrice
        env.centrisPages) k).isSome) := by
  have hdu : (lookupStore (scanDuproprioListings env.today env.duproprioPages) k).isSome →
      ∃ r, k = "duproprio-" ++ r := by
    intro h
    obtain ⟨l, hl⟩ := Option.isSome_iff_exists.mp h
    obtain ⟨p, hp, it, hit, hsold, hex⟩ := scanDuproprio_lookup _ _ _ _ hl
    obtain ⟨-, hk, -⟩ := duproprioExtractItem_ok _ _ _ _ hex
    exact ⟨_, hk⟩
  have hst : (lookupStore (scanSuttonListings env.today env.suttonPages) k).isSome →
      ∃ r, k = "sutton-" ++ r := by
    intro h
    obtain ⟨l, hl⟩ := Option.isSome_iff_exists.mp h
    obtain ⟨p, hp, it, hit, hex⟩ := scanSutton_lookup _ _ _ _ hl
    obtain ⟨-, hk, -⟩ := suttonExtractItem_ok _ _ _ _ hex
    exact ⟨_, hk⟩
  have hct : (lookupStore (scanCentrisListings env.today env.minPrice env.maxPrice
      env.centrisPages) k).isSome → ∃ r, k = "centris-" ++ r := by
    intro h
    obtain ⟨l, hl⟩ := Option.isSome_iff_exists.mp h
    obtain ⟨p, hp, it, hit, hex⟩ := scanCentris_lookup _ _ _ _ _ _ hl
    obtain ⟨⟨mls, href, -, hk, -⟩, -⟩ := centrisExtractItem_ok _ _ _ _ _ _ hex
    exact ⟨_, hk⟩
  refine ⟨hdu, hst, hct, ?_, ?_, ?_⟩
  · rintro ⟨h1, h2⟩
    obtain ⟨r1, hr1⟩ := hdu h1
    obtain ⟨r2, hr2⟩ := hst h2
    exact ne_append_of_head_ne "duproprio-" "sutton-" r1 r2 'd' 's'
      "uproprio-".data "utton-".data rfl rfl (by decide) (hr1.symm.trans hr2)
  · rintro ⟨h1, h2⟩
    obtain ⟨r1, hr1⟩ := hdu h1
    obtain ⟨r2, hr2⟩ := hct h2
    exact ne_append_of_head_ne "duproprio-" "centris-" r1 r2 'd' 'c'
      "uproprio-".data "entris-".data rfl rfl (by decide) (hr1.symm.trans hr2)
  · rintro ⟨h1, h2⟩
    obtain ⟨r1, hr1⟩ := hst h1
    obtain ⟨r2, hr2⟩ := hct h2
    exact ne_append_of_head_ne "sutton-" "centris-" r1 r2 's' 'c'
      "utton-".data "entris-".data rfl rfl (by decide) (hr1.symm.trans hr2)

theorem adapter_ids_namespaced_witness :
    (∃ r, "duproprio-55" = "duproprio-" ++ r) ∧
    (∃ r, "sutton-88" = "sutton-" ++ r) ∧
    (∃ r, "centris-987" = "centris-" ++ r) :=
  ⟨(adapter_ids_namespaced exEnv "duproprio-55").1 (by decide),
   (adapter_ids_namespaced exEnv "sutton-88").2.1 (by decide),
   (adapter_ids_namespaced exEnv "centris-987").2.2.1 (by decide)⟩

theorem suttonBody_nodup (today : String) (pages : List SuttonPage)
    (acc : Store) (n : Nat) (r : Store) (m : Nat) (hacc : NodupKeys acc)
    (hr : suttonBody today pages acc n = .ok (r, m) ∨
          suttonBody today pages acc n = .error (r, m)) : NodupKeys r := by
  induction pages generalizing acc n with
  | nil =>
      rcases hr with hr | hr
      · simp [suttonBody] at hr
      · simp only [suttonBody, Except.error.injEq, Prod.mk.injEq] at hr
        rw [← hr.1]
        exact hacc
  | cons p rest ih =>
      cases hpl : suttonPageListings today p.items [] with
      | error e =>
          have hracc : r = acc := by
            rcases hr with hr | hr
            · simp [suttonBody, hpl] at hr
            · simp only [suttonBody, hpl, Except.error.injEq, Prod.mk.injEq] at hr
              exact hr.1.symm
          subst hracc
          exact hacc
      | ok pageL =>
          have hacc' : NodupKeys (objAssign acc pageL) :=
            nodupKeys_objAssign _ _ hacc
          by_cases hlast : p.nextHidden
          · have hracc : r = objAssign acc pageL := by
              rcases hr with hr | hr
              · simp only [suttonBody, hpl, hlast, if_true, Except.ok.injEq,
                  Prod.mk.injEq] at hr
                exact hr.1.symm
              · simp [suttonBody, hpl, hlast] at hr
            subst hracc
            exact hacc'
          · refine ih _ (n + 1) hacc' ?_
            rcases hr with hr | hr
            · exact Or.inl (by simpa [suttonBody, hpl, hlast] using hr)
            · exact Or.inr (by simpa [suttonBody, hpl, hlast] using hr)

theorem scanSutton_nodup (today : String) (pages : List SuttonPage) :
    NodupKeys (scanSuttonListings today pages) := by
  unfold scanSuttonListings
  cases hb : suttonBody today pages [] 1 with
  | ok rm =>
      obtain ⟨r, m⟩ := rm
      exact suttonBody_nodup today pages [] 1 r m (by simp [NodupKeys, storeKeys])
        (Or.inl hb)
  | error rm =>
      obtain ⟨r, m⟩ := rm
      exact suttonBody_nodup today pages [] 1 r m (by simp [NodupKeys, storeKeys])
        (Or.inr hb)

theorem scannedOf_of_sutton (env : ScanEnv) (k : String) (l : Listing)
    (h : lookupStore (scanSuttonListings env.today env.suttonPages) k = some l) :
    lookupStore (scannedOf env) k = some l := by
  unfold scannedOf
  rw [lookupStore_objAssign _ _ k (scanSutton_nodup env.today env.suttonPages), h]

/-- C3, counterexample: an unparseable price is NOT skipped.  The
DuProprio item `exNanPriceItem` has the price text "Price on request"
(no digits), so `parseInt` yields NaN; the record is still present in the
adapter's output mapping, with a NaN price. -/
theorem nan_price_emitted_counterexample :
    (lookupStore (scanDuproprioListings "2026-02-01" [exNanPricePage])
        "duproprio-123").isSome = true ∧
    (lookupStore (scanDuproprioListings "2026-02-01" [exNanPricePage])
        "duproprio-123").map Listing.price = some none := by
  decide

/-- C3 (amended): a record whose mandatory DOM nodes (id attribute of the
expected shape, price node, image node, detail link) are missing is never
present in an adapter's output — extraction throws before the record is
assigned — and `url`/`imageUrl`/`price` always come from those nodes; but
an *unparseable* price value is not skipped: the record is emitted with a
NaN (`none`) price. -/
theorem mandatory_fields_guarded (env : ScanEnv) (k : String) (l : Listing) :
    (lookupStore (scanDuproprioListings env.today env.duproprioPages) k = some l →
      ∃ it, (∃ p ∈ env.duproprioPages, it ∈ p.items) ∧
        jsTestListing (it.attrId.getD "null") = true ∧
        (∃ t, it.priceText = some t ∧ l.price = parseIntJS (stripNonDigits t)) ∧
        (∃ src, it.imageSrc = some src ∧ l.imageUrl = src) ∧
        (∃ href, it.linkHref = some href ∧ l.url = href)) ∧
    (lookupStore (scanSuttonListings env.today env.suttonPages) k = some l →
      ∃ it, (∃ p ∈ env.suttonPages, it ∈ p.items) ∧
        l.price = it.dataPrix.bind parseIntJS ∧
        (∃ img, it.image = some img ∧ l.imageUrl = some img) ∧
        (∃ txt href, it.details = some (txt, href) ∧ l.url = href)) ∧
    (lookupStore (scanCentrisListings env.today env.minPrice env.maxPrice
        env.centrisPages) k = some l →
      ∃ it, (∃ p ∈ env.centrisPages, it ∈ p.items) ∧
        (∃ content, it.priceContent = some content ∧
          l.price = content.bind parseIntJS) ∧
        (∃ src, it.imageSrc = some src ∧
          l.imageUrl = some (centrisRewriteImage src)) ∧
        (∃ mls href, it.detailsLink = some (mls, href) ∧ l.url = href)) := by
  refine ⟨?_, ?_, ?_⟩
  · intro h
    obtain ⟨p, hp, it, hit, hsold, hex⟩ := scanDuproprio_lookup _ _ _ _ h
    obtain ⟨htest, -, -, hprice, himg, hhref, -⟩ :=
      duproprioExtractItem_ok _ _ _ _ hex
    exact ⟨it, ⟨p, hp, hit⟩, htest, hprice, himg, hhref⟩
  · intro h
    obtain ⟨p, hp, it, hit, hex⟩ := scanSutton_lookup _ _ _ _ h
    obtain ⟨-, -, -, hprice, himg, hdet, -⟩ := suttonExtractItem_ok _ _ _ _ hex
    exact ⟨it, ⟨p, hp, hit⟩, hprice, himg, hdet⟩
  · intro h
    obtain ⟨p, hp, it, hit, hex⟩ := scanCentris_lookup _ _ _ _ _ _ h
    obtain ⟨⟨mls, href, hdl, -, hurl⟩, -, ⟨content, hpc, hprice, -⟩, himg, -⟩ :=
      centrisExtractItem_ok _ _ _ _ _ _ hex
    exact ⟨it, ⟨p, hp, hit⟩, ⟨content, hpc, hprice⟩, himg, ⟨mls, href, hdl, hurl⟩⟩

theorem mandatory_fields_guarded_witness :
    ∃ it, (∃ p ∈ exEnv.duproprioPages, it ∈ p.items) ∧
      jsTestListing (it.attrId.getD "null") = true ∧
      (∃ t, it.priceText = some t ∧
        exDuListing.price = parseIntJS (stripNonDigits t)) ∧
      (∃ src, it.imageSrc = some src ∧ exDuListing.imageUrl = src) ∧
      (∃ href, it.linkHref = some href ∧ exDuListing.url = href) :=
  (mandatory_fields_guarded exEnv "duproprio-55" exDuListing).1 (by decide)

/-- C4, counterexample: the Centris extractor performs no sold/unavailable
check at all (src/scan.js lines 234-257 read only the detail link, address,
city, image and price), so an item carrying a sold marker whose price is
within bounds still contributes a record. -/
theorem centris_sold_item_counterexample :
    exSoldCentrisItem.isSold = true ∧
    (lookupStore (scanCentrisListings "2026-01-01" 0 1000000 exCentrisPages)
        "centris-987").isSome = true := by
  decide

/-- C4 (amended): DuProprio (the `:not(.is-sold)` selector) and Sutton
(the `.vendu` check) exclude sold items — every record in their output
mappings originates from an item not marked sold — but Centris performs no
such check. -/
theorem sold_items_excluded_du_sutton (env : ScanEnv) (k : String) (l : Listing) :
    (lookupStore (scanDuproprioListings env.today env.duproprioPages) k = some l →
      ∃ p ∈ env.duproprioPages, ∃ it ∈ p.items, it.isSold = false ∧
        duproprioExtractItem env.today it = .ok (some (k, l))) ∧
    (lookupStore (scanSuttonListings env.today env.suttonPages) k = some l →
      ∃ p ∈ env.suttonPages, ∃ it ∈ p.items, it.isSold = false ∧
        suttonExtractItem env.today it = .ok (some (k, l))) := by
  constructor
  · intro h
    exact scanDuproprio_lookup _ _ _ _ h
  · intro h
    obtain ⟨p, hp, it, hit, hex⟩ := scanSutton_lookup _ _ _ _ h
    obtain ⟨hsold, -⟩ := suttonExtractItem_ok _ _ _ _ hex
    exact ⟨p, hp, it, hit, hsold, hex⟩

theorem sold_items_excluded_witness :
    (∃ p ∈ exEnv.duproprioPages, ∃ it ∈ p.items, it.isSold = false ∧
      duproprioExtractItem exEnv.today it = .ok (some ("duproprio-55", exDuListing))) ∧
    (∃ p ∈ exEnv.suttonPages, ∃ it ∈ p.items, it.isSold = false ∧
      suttonExtractItem exEnv.today it = .ok (some ("sutton-88", exSuttonListing))) :=
  ⟨(sold_items_excluded_du_sutton exEnv "duproprio-55" exDuListing).1 (by decide),
   (sold_items_excluded_du_sutton exEnv "sutton-88" exSuttonListing).2 (by decide)⟩

/-- C7: each adapter's try/catch boundary converts any failure of its body
into the mapping accumulated so far (partial for DuProprio/Sutton, empty
for Centris, whose result variable is only assigned on success); the
adapter surfaces no exception, Sutton's results always reach the merged
mapping regardless of the other adapters' failures, and the run finishes
with exit code 0. -/
theorem adapter_failures_isolated (env : ScanEnv) (saved : Store) :
    (∀ acc n, duproprioBody env.today env.duproprioPages [] 1 = .error (acc, n) →
      scanDuproprioListings env.today env.duproprioPages = acc) ∧
    (∀ acc n, suttonBody env.today env.suttonPages [] 1 = .error (acc, n) →
      scanSuttonListings env.today env.suttonPages = acc) ∧
    (centrisBody env.today env.minPrice env.maxPrice env.centrisPages = .error () →
      scanCentrisListings env.today env.minPrice env.maxPrice env.centrisPages = []) ∧
    (∀ k l, lookupStore (scanSuttonListings env.today env.suttonPages) k = some l →
      lookupStore (scannedOf env) k = some l) ∧
    (mainRun env saved).exitCode = 0 := by
  refine ⟨?_, ?_, ?_, ?_, rfl⟩
  · intro acc n h
    simp [scanDuproprioListings, h]
  · intro acc n h
    simp [scanSuttonListings, h]
  · intro h
    simp [scanCentrisListings, h]
  · intro k l h
    exact scannedOf_of_sutton env k l h

theorem adapter_failures_isolated_witness :
    scanDuproprioListings "d" [] = [] ∧ scanSuttonListings "d" [] = [] ∧
    scanCentrisListings "d" 0 0 [] = [] ∧
    lookupStore (scannedOf exEnv) "sutton-88" = some exSuttonListing := by
  have h := adapter_failures_isolated ⟨"d", [], [], 0, 0, []⟩ []
  have h2 := adapter_failures_isolated exEnv []
  exact ⟨h.1 [] 1 rfl, h.2.1 [] 1 rfl, h.2.2.1 rfl,
    h2.2.2.2.1 "sutton-88" exSuttonListing (by decide)⟩

theorem duproprioProcessItems_clean (today : String)
    (items : List DuproprioItem) (acc : Store)
    (hclean : ∀ it ∈ items, duproprioExtractItem today it ≠ .error ()) :
    duproprioProcessItems today items acc =
      .ok (duproprioFoldItems today items acc) := by
  induction items generalizing acc with
  | nil => rfl
  | cons it rest ih =>
      have hcr : ∀ x ∈ rest, duproprioExtractItem today x ≠ .error () :=
        fun x hx => hclean x (by simp [hx])
      cases hx : duproprioExtractItem today it with
      | error e =>
          cases e
          exact absurd hx (hclean it (by simp))
      | ok o =>
          cases o with
          | none => simp [duproprioProcessItems, duproprioFoldItems, hx, ih _ hcr]
          | some kl =>
              obtain ⟨k, l⟩ := kl
              simp [duproprioProcessItems, duproprioFoldItems, hx, ih _ hcr]

theorem duproprioBody_pagination (today : String) (front : List DuproprioPage)
    (lastP : DuproprioPage) (acc : Store) (n : Nat)
    (hfront : ∀ p ∈ front, p.activeIsLast = false)
    (hlast : lastP.activeIsLast = true)
    (hclean : ∀ p ∈ front ++ [lastP], ∀ it ∈ p.items,
        duproprioExtractItem today it ≠ .error ()) :
    duproprioBody today (front ++ [lastP]) acc n =
      .ok (duproprioPagesFold today (front ++ [lastP]) acc, n + front.length) := by
  induction front generalizing acc n with
  | nil =>
      have hcl : ∀ it ∈ lastP.items.filter (fun i => !i.isSold),
          duproprioExtractItem today it ≠ .error () :=
        fun it hit => hclean lastP (by simp) it (List.mem_filter.mp hit).1
      simp [duproprioBody, duproprioPagesFold, duproprioFoldItems,
        duproprioProcessItems_clean today _ acc hcl, hlast]
  | cons p front' ih =>
      have hcp : ∀ it ∈ p.items.filter (fun i => !i.isSold),
          duproprioExtractItem today it ≠ .error () :=
        fun it hit => hclean p (by simp) it (List.mem_filter.mp hit).1
      have hp : p.activeIsLast = false := hfront p (by simp)
      have hrec := ih (duproprioFoldItems today
          (p.items.filter (fun i => !i.isSold)) acc) (n + 1)
        (fun q hq => hfront q (by simp [hq]))
        (fun q hq it hit => hclean q (by simp [hq]) it hit)
      simp only [List.cons_append, duproprioBody,
        duproprioProcessItems_clean today _ acc hcp, hp, Bool.false_eq_true,
        if_false, duproprioPagesFold, List.append_eq]
      have harr : n + 1 + front'.length = n + (p :: front').length := by
        simp only [List.length_cons]
        omega
      rw [hrec, harr]

theorem suttonPageListings_clean (today : String) (items : List SuttonItem)
    (acc : Store)
    (hclean : ∀ it ∈ items, suttonExtractItem today it ≠ .error ()) :
    suttonPageListings today items acc =
      .ok (suttonFoldItems today items acc) := by
  induction items generalizing acc with
  | nil => rfl
  | cons it rest ih =>
      have hcr : ∀ x ∈ rest, suttonExtractItem today x ≠ .error () :=
        fun x hx => hclean x (by simp [hx])
      cases hx : suttonExtractItem today it with
      | error e =>
          cases e
          exact absurd hx (hclean it (by simp))
      | ok o =>
          cases o with
          | none => simp [suttonPageListings, suttonFoldItems, hx, ih _ hcr]
          | some kl =>
              obtain ⟨k, l⟩ := kl
              simp [suttonPageListings, suttonFoldItems, hx, ih _ hcr]

theorem suttonBody_pagination (today : String) (front : List SuttonPage)
    (lastP : SuttonPage) (acc : Store) (n : Nat)
    (hfront : ∀ p ∈ front, p.nextHidden = false)
    (hlast : lastP.nextHidden = true)
    (hclean : ∀ p ∈ front ++ [lastP], ∀ it ∈ p.items,
        suttonExtractItem today it ≠ .error ()) :
    suttonBody today (front ++ [lastP]) acc n =
      .ok (suttonPagesFold today (front ++ [lastP]) acc, n + front.length) := by
  induction front generalizing acc n with
  | nil =>
      have hcl : ∀ it ∈ lastP.items, suttonExtractItem today it ≠ .error () :=
        fun it hit => hclean lastP (by simp) it hit
      simp [suttonBody, suttonPagesFold,
        suttonPageListings_clean today _ [] hcl, hlast]
  | cons p front' ih =>
      have hcp : ∀ it ∈ p.items, suttonExtractItem today it ≠ .error () :=
        fun it hit => hclean p (by simp) it hit
      have hp : p.nextHidden = false := hfront p (by simp)
      have hrec := ih (objAssign acc (suttonFoldItems today p.items [])) (n + 1)
        (fun q hq => hfront q (by simp [hq]))
        (fun q hq it hit => hclean q (by simp [hq]) it hit)
      simp only [List.cons_append, suttonBody,
        suttonPageListings_clean today _ [] hcp, hp, Bool.false_eq_true,
        if_false, suttonPagesFold, List.append_eq]
      have harr : n + 1 + front'.length = n + (p :: front').length := by
        simp only [List.length_cons]
        omega
      rw [hrec, harr]

theorem duproprioFoldItems_isSome (today : String)
    (items : List DuproprioItem) (acc : Store) (k : String) :
    (lookupStore (duproprioFoldItems today items acc) k).isSome ↔
      (lookupStore acc k).isSome ∨
        ∃ it ∈ items, ∃ l, duproprioExtractItem today it = .ok (some (k, l)) := by
  induction items generalizing acc with
  | nil => simp [duproprioFoldItems]
  | cons it rest ih =>
      cases hx : duproprioExtractItem today it with
      | error e => simp [duproprioFoldItems, hx, ih]
      | ok o =>
          cases o with
          | none => simp [duproprioFoldItems, hx, ih]
          | some kl =>
              obtain ⟨k', l'⟩ := kl
              by_cases hkk : k = k'
              · subst hkk
                simp [duproprioFoldItems, hx, ih, lookupStore_setKey]
              · have hkk2 : ¬ k' = k := Ne.symm hkk
                simp [duproprioFoldItems, hx, ih, lookupStore_setKey, hkk, hkk2]

theorem duproprioPagesFold_isSome (today : String)
    (pages : List DuproprioPage) (acc : Store) (k : String) :
    (lookupStore (duproprioPagesFold today pages acc) k).isSome ↔
      (lookupStore acc k).isSome ∨
        ∃ p ∈ pages, ∃ it ∈ p.items, it.isSold = false ∧
          ∃ l, duproprioExtractItem today it = .ok (some (k, l)) := by
  induction pages generalizing acc with
  | nil => simp [duproprioPagesFold]
  | cons p rest ih =>
      simp only [duproprioPagesFold]
      rw [ih, duproprioFoldItems_isSome]
      simp only [List.mem_cons, List.mem_filter, Bool.not_eq_true']
      constructor
      · rintro ((hacc | ⟨it, ⟨hit, hsold⟩, hl⟩) | ⟨p', hp', hrest⟩)
        · exact Or.inl hacc
        · exact Or.inr ⟨p, Or.inl rfl, it, hit, hsold, hl⟩
        · exact Or.inr ⟨p', Or.inr hp', hrest⟩
      · rintro (hacc | ⟨p', hp' | hp', hrest⟩)
        · exact Or.inl (Or.inl hacc)
        · subst hp'
          obtain ⟨it, hit, hsold, hl⟩ := hrest
          exact Or.inl (Or.inr ⟨it, ⟨hit, hsold⟩, hl⟩)
        · exact Or.inr ⟨p', hp', hrest⟩

theorem suttonFoldItems_isSome (today : String) (items : List SuttonItem)
    (acc : Store) (k : String) :
    (lookupStore (suttonFoldItems today items acc) k).isSome ↔
      (lookupStore acc k).isSome ∨
        ∃ it ∈ items, ∃ l, suttonExtractItem today it = .ok (some (k, l)) := by
  induction items generalizing acc with
  | nil => simp [suttonFoldItems]
  | cons it rest ih =>
      cases hx : suttonExtractItem today it with
      | error e => simp [suttonFoldItems, hx, ih]
      | ok o =>
          cases o with
          | none => simp [suttonFoldItems, hx, ih]
          | some kl =>
              obtain ⟨k', l'⟩ := kl
              by_cases hkk : k = k'
              · subst hkk
                simp [suttonFoldItems, hx, ih, lookupStore_setKey]
              · have hkk2 : ¬ k' = k := Ne.symm hkk
                simp [suttonFoldItems, hx, ih, lookupStore_setKey, hkk, hkk2]

theorem suttonPagesFold_isSome (today : String) (pages : List SuttonPage)
    (acc : Store) (k : String) :
    (lookupStore (suttonPagesFold today pages acc) k).isSome ↔
      (lookupStore acc k).isSome ∨
        ∃ p ∈ pages, ∃ it ∈ p.items, ∃ l,
          suttonExtractItem today it = .ok (some (k, l)) := by
  induction pages generalizing acc with
  | nil => simp [suttonPagesFold]
  | cons p rest ih =>
      simp only [suttonPagesFold]
      rw [ih, isSome_lookupStore_objAssign, suttonFoldItems_isSome]
      simp only [List.mem_cons, lookupStore, Option.isSome_none,
        Bool.false_eq_true, false_or]
      constructor
      · rintro ((hacc | ⟨it, hit, hl⟩) | ⟨p', hp', hrest⟩)
        · exact Or.inl hacc
        · exact Or.inr ⟨p, Or.inl rfl, it, hit, hl⟩
        · exact Or.inr ⟨p', Or.inr hp', hrest⟩
      · rintro (hacc | ⟨p', hp' | hp', hrest⟩)
        · exact Or.inl (Or.inl hacc)
        · subst hp'
          obtain ⟨it, hit, hl⟩ := hrest
          exact Or.inl (Or.inr ⟨it, hit, hl⟩)
        · exact Or.inr ⟨p', hp', hrest⟩

/-- C9: over a simulated page sequence of length N whose terminal signal
(DuProprio: active pager entry is last; Sutton: hidden next control) is
true only on page N, and whose items all extract without throwing, the
do/while loop of each adapter terminates normally with its `pageNumber`
counter at exactly N — no page-count cap is involved for any N — and the
returned mapping holds exactly the keys extracted across all N pages. -/
theorem pagination_terminal_driven (today : String)
    (duFront : List DuproprioPage) (duLast : DuproprioPage)
    (stFront : List SuttonPage) (stLast : SuttonPage)
    (hdf : ∀ p ∈ duFront, p.activeIsLast = false)
    (hdl : duLast.activeIsLast = true)
    (hdc : ∀ p ∈ duFront ++ [duLast], ∀ it ∈ p.items,
        duproprioExtractItem today it ≠ .error ())
    (hsf : ∀ p ∈ stFront, p.nextHidden = false)
    (hsl : stLast.nextHidden = true)
    (hsc : ∀ p ∈ stFront ++ [stLast], ∀ it ∈ p.items,
        suttonExtractItem today it ≠ .error ()) :
    (duproprioBody today (duFront ++ [duLast]) [] 1 =
        .ok (scanDuproprioListings today (duFront ++ [duLast]),
          (duFront ++ [duLast]).length) ∧
      ∀ k, (lookupStore (scanDuproprioListings today (duFront ++ [duLast])) k).isSome ↔
        ∃ p ∈ duFront ++ [duLast], ∃ it ∈ p.items, it.isSold = false ∧
          ∃ l, duproprioExtractItem today it = .ok (some (k, l))) ∧
    (suttonBody today (stFront ++ [stLast]) [] 1 =
        .ok (scanSuttonListings today (stFront ++ [stLast]),
          (stFront ++ [stLast]).length) ∧
      ∀ k, (lookupStore (scanSuttonListings today (stFront ++ [stLast])) k).isSome ↔
        ∃ p ∈ stFront ++ [stLast], ∃ it ∈ p.items, ∃ l,
          suttonExtractItem today it = .ok (some (k, l))) := by
  have hdu := duproprioBody_pagination today duFront duLast [] 1 hdf hdl hdc
  have hst := suttonBody_pagination today stFront stLast [] 1 hsf hsl hsc
  have hdlen : 1 + duFront.length = (duFront ++ [duLast]).length := by
    simp only [List.length_append, List.length_cons, List.length_nil]
    omega
  have hslen : 1 + stFront.length = (stFront ++ [stLast]).length := by
    simp only [List.length_append, List.length_cons, List.length_nil]
    omega
  have hduscan : scanDuproprioListings today (duFront ++ [duLast]) =
      duproprioPagesFold today (duFront ++ [duLast]) [] := by
    unfold scanDuproprioListings
    rw [hdu]
  have hstscan : scanSuttonListings today (stFront ++ [stLast]) =
      suttonPagesFold today (stFront ++ [stLast]) [] := by
    unfold scanSuttonListings
    rw [hst]
  refine ⟨⟨?_, ?_⟩, ?_, ?_⟩
  · rw [hduscan, hdu, hdlen]
  · intro k
    rw [hduscan, duproprioPagesFold_isSome]
    simp [lookupStore]
  · rw [hstscan, hst, hslen]
  · intro k
    rw [hstscan, suttonPagesFold_isSome]
    simp [lookupStore]

theorem pagination_terminal_driven_witness :
    duproprioBody "2026-02-01" ([] ++ [exDuPage]) [] 1 =
      .ok (scanDuproprioListings "2026-02-01" ([] ++ [exDuPage]),
        ([] ++ [exDuPage]).length) ∧
    suttonBody "2026-02-01" ([] ++ [exSuttonPage]) [] 1 =
      .ok (scanSuttonListings "2026-02-01" ([] ++ [exSuttonPage]),
        ([] ++ [exSuttonPage]).length) := by
  have h := pagination_terminal_driven "2026-02-01" [] exDuPage [] exSuttonPage
    (by simp) (by decide) (by decide) (by simp) (by decide) (by decide)
  exact ⟨h.1.1, h.2.1⟩
